import Mathlib

/-
  Verification of the AI-DJ mix engine (protou5.py).

  The embedding models waveform samples, timestamps and energies as
  rationals.  External capabilities (the time stretcher, the beat
  analyzer backend) are abstracted as function parameters, mirroring the
  spec's capability interfaces; everything computed by the repository's
  own code is embedded faithfully from the source.
-/

namespace AIDJ

/-- Time axis of the short-time energy envelope: frame i lies at
i * hop / sr seconds with the fixed hop of 512 samples, as produced by
frames_to_time over arange(n). -/
def frameTimes (n : Nat) (sr : ℚ) : List ℚ :=
  (List.range n).map (fun i => (i * 512 : ℚ) / sr)

/-- One step of the left-to-right envelope scan of detect_vocal_sections:
state is (collected sections, open-section start, accumulated duration).
A frame above threshold opens or extends a section, adding 1/sr to the
accumulator (as the source does); a frame at or below threshold closes an
open section, keeping it only if the accumulator lies in [minD, maxD]. -/
def dvsScan (thr sr minD maxD : ℚ) :
    List (ℚ × ℚ) → Option ℚ → ℚ → List (ℚ × ℚ) →
    List (ℚ × ℚ) × Option ℚ × ℚ
  | [], curStart, curDur, secs => (secs, curStart, curDur)
  | (energy, timestamp) :: rest, curStart, curDur, secs =>
    if thr < energy then
      match curStart with
      | none => dvsScan thr sr minD maxD rest (some timestamp) (curDur + 1 / sr) secs
      | some s => dvsScan thr sr minD maxD rest (some s) (curDur + 1 / sr) secs
    else
      match curStart with
      | some s =>
        if minD ≤ curDur ∧ curDur ≤ maxD then
          dvsScan thr sr minD maxD rest none 0 (secs ++ [(s, timestamp)])
        else
          dvsScan thr sr minD maxD rest none 0 secs
      | none => dvsScan thr sr minD maxD rest curStart curDur secs

/-- Embedding of detect_vocal_sections from the energy envelope onward
(the RMS computation itself is the librosa feature call): scans the
zipped (energy, time) frames, and if the scan ends with an open section,
closes it at the final timestamp subject to the same duration filter. -/
def detect_vocal_sections (vocal_energy : List ℚ) (sr thr minD maxD : ℚ) :
    List (ℚ × ℚ) :=
  let times := frameTimes vocal_energy.length sr
  match dvsScan thr sr minD maxD (vocal_energy.zip times) none 0 [] with
  | (secs, none, _) => secs
  | (secs, some s, dur) =>
    if minD ≤ dur ∧ dur ≤ maxD then
      match times.getLast? with
      | some tLast => secs ++ [(s, tLast)]
      | none => secs
    else secs

/-- Bar timestamps: every 4th beat of the grid, indices 0, 4, 8, ...
(the fixed 4/4 assumption of find_safe_transition_point). -/
def barTimes (bt : List ℚ) : List ℚ :=
  ((List.range bt.length).filter (fun i => decide (i % 4 = 0))).filterMap
    (fun i => bt[i]?)

/-- Stable insertion of one bar into a list sorted by absolute distance
to the candidate c; earlier elements win ties, matching the stable sort
of the source. -/
def insertByDist (c x : ℚ) : List ℚ → List ℚ
  | [] => [x]
  | y :: ys => if |y - c| < |x - c| then y :: insertByDist c x ys else x :: y :: ys

/-- Stable sort of bar times by absolute distance to the candidate c. -/
def sortByDist (c : ℚ) (l : List ℚ) : List ℚ :=
  l.foldr (insertByDist c) []

/-- Acceptance test of the bar loop in find_safe_transition_point: a bar
is rejected by a vocal section when it is within 2.0 s of its start,
within 2.0 s of its end, or strictly inside it. -/
def acceptBar (sections : List (ℚ × ℚ)) (b : ℚ) : Bool :=
  sections.all (fun s =>
    !(decide (|b - s.1| < 2) || decide (|b - s.2| < 2) ||
      decide (s.1 < b ∧ b < s.2)))

/-- Core of find_safe_transition_point, after the vocal sections have
been detected: restrict bars to the search window, order them by
proximity to the candidate, return the first accepted one, falling back
to the candidate itself. -/
def find_safe_transition_core (sections : List (ℚ × ℚ)) (bt : List ℚ)
    (candidate_sec search_radius : ℚ) : ℚ :=
  let valid := (barTimes bt).filter (fun b =>
    decide (candidate_sec - search_radius ≤ b) &&
    decide (b ≤ candidate_sec + search_radius))
  ((sortByDist candidate_sec valid).find? (acceptBar sections)).getD candidate_sec

/-- find_safe_transition_point: detect vocal sections on the vocal stem
envelope (defaults: threshold 0.01, durations in [4, 16]) and run the
safe-point search. -/
def find_safe_transition_point (vocal_energy : List ℚ) (sr : ℚ)
    (bt : List ℚ) (candidate_sec search_radius : ℚ) : ℚ :=
  find_safe_transition_core
    (detect_vocal_sections vocal_energy sr (1 / 100) 4 16)
    bt candidate_sec search_radius

/-- The three-branch duration-based candidate of
determine_transition_point (0.6 written as 3/5). -/
def candidate_transition (dur min_t max_t : ℚ) : ℚ :=
  if dur < min_t then dur * (3 / 5)
  else if max_t < dur then min (dur * (3 / 5)) max_t
  else dur * (3 / 5)

/-- Modelled from the spec words for the refinement claim: the single
formula the three branches are claimed to collapse to. -/
def candidate_transition_spec (dur max_t : ℚ) : ℚ :=
  min (dur * (3 / 5)) max_t

/-- The guarded, clamped stretch factor of apply_outgoing_tempo:
non-positive source tempo becomes 1, non-positive target tempo becomes
the guarded source, and the quotient is clamped to
[1 - max_shift, 1 + max_shift]. -/
def stretchFactor (src_bpm tgt_bpm max_shift : ℚ) : ℚ :=
  let src := if src_bpm ≤ 0 then 1 else src_bpm
  let tgt := if tgt_bpm ≤ 0 then src else tgt_bpm
  max (1 - max_shift) (min (tgt / src) (1 + max_shift))

/-- Python int() conversion: truncation toward zero. -/
def pyInt (x : ℚ) : ℤ :=
  if 0 ≤ x then ⌊x⌋ else -⌊-x⌋

/-- Python list slicing y[a:b] with unit step: negative endpoints count
from the end, both endpoints saturate to the list bounds. -/
def pySlice (y : List ℚ) (a b : ℤ) : List ℚ :=
  let n : ℤ := y.length
  let lo : ℤ := if a < 0 then max 0 (n + a) else min a n
  let hi : ℤ := if b < 0 then max 0 (n + b) else min b n
  (y.take hi.toNat).drop lo.toNat

/-- apply_outgoing_tempo over an abstract time stretcher: extract the
window [exit - window, exit), guard degenerate windows by returning the
waveform unchanged, otherwise splice the stretched segment between the
untouched prefix and suffix. -/
def apply_outgoing_tempo (stretch : List ℚ → ℚ → List ℚ) (y : List ℚ)
    (sr transition_time window_sec src_bpm tgt_bpm max_shift : ℚ) : List ℚ :=
  let start_sec := max 0 (transition_time - window_sec)
  let end_sec := transition_time
  let rt := stretchFactor src_bpm tgt_bpm max_shift
  let start_sample := pyInt (start_sec * sr)
  let end_sample := pyInt (end_sec * sr)
  if end_sample ≤ start_sample then y
  else
    pySlice y 0 start_sample ++
      stretch (pySlice y start_sample end_sample) rt ++
      pySlice y end_sample (y.length : ℤ)

/-- Intended duration of the first-pair mix in dj_mix_three_songs:
(t1 - crossfade) + t2, floored at 0 exactly as the source's if-guard. -/
def mix_12_duration (t1_ms t2_ms crossfade_ms : ℤ) : ℤ :=
  if (t1_ms - crossfade_ms) + t2_ms < 0 then 0
  else (t1_ms - crossfade_ms) + t2_ms

/-- First sound-effect overlay position in dj_mix_three_songs. -/
def fx1_pos (t1_ms crossfade_ms : ℤ) : ℤ :=
  max 0 (t1_ms - crossfade_ms)

/-- Second sound-effect overlay position in dj_mix_three_songs, anchored
on the clamped first-pair mix duration. -/
def fx2_pos (t1_ms t2_ms crossfade_ms : ℤ) : ℤ :=
  max 0 (mix_12_duration t1_ms t2_ms crossfade_ms - crossfade_ms)

/-- Truncation of the blended result to the intended duration
(the mix_12[:mix_12_duration] slice, with a non-negative bound). -/
def truncateMix (mix : List ℚ) (d : ℤ) : List ℚ :=
  mix.take d.toNat

/-- find_bpm_and_beats over an abstract fallible analyzer backend: on
success the analysis result is passed through, on failure the documented
default of bpm 120 and no beats is returned. -/
def find_bpm_and_beats {ε : Type} (analyze : List ℚ → Except ε (ℚ × List ℚ))
    (y : List ℚ) : ℚ × List ℚ :=
  match analyze y with
  | Except.ok res => res
  | Except.error _ => (120, [])

/-- Helper: mix_12_duration is never negative. -/
theorem mix_12_duration_nonneg (t1_ms t2_ms crossfade_ms : ℤ) :
    0 ≤ mix_12_duration t1_ms t2_ms crossfade_ms := by
  unfold mix_12_duration
  split_ifs with h
  · exact le_refl 0
  · exact le_of_not_lt h

unseal Rat.mul Rat.inv Rat.add Rat.sub in
/-- Claim C2 (code bug exhibit): an energy envelope whose single
sustained plateau spans exactly the minimum section duration of 4.0
seconds (sr = 512, so frames are 1 s apart: frames at t = 1..4 are above
threshold, closed at t = 5) is discarded and the detector returns no
sections, because the scan accumulates 1/sr per frame instead of the
frame hop of 512/sr seconds. -/
theorem C2_min_plateau_discarded :
    detect_vocal_sections [0, 1, 1, 1, 1, 0, 0] 512 (1 / 100) 4 16 = [] := by
  decide

/-- Claim C4: the applied stretch factor always lies in
[1 - maxShift, 1 + maxShift]; for source 100 and target 200 BPM with the
default maxShift of 0.05 it is 1.05 rather than 2.0; a non-positive
target tempo resolves to factor 1; and an in-range quotient of positive
tempos is applied unclamped. -/
theorem C4_tempo_clamp :
    (∀ src tgt s : ℚ, 0 ≤ s →
        1 - s ≤ stretchFactor src tgt s ∧ stretchFactor src tgt s ≤ 1 + s) ∧
    stretchFactor 100 200 (1 / 20) = 21 / 20 ∧
    (∀ src : ℚ, stretchFactor src 0 (1 / 20) = 1) ∧
    (∀ src tgt s : ℚ, 0 < src → 0 < tgt →
        1 - s ≤ tgt / src → tgt / src ≤ 1 + s →
        stretchFactor src tgt s = tgt / src) := by
  refine ⟨?_, ?_, ?_, ?_⟩
  · intro src tgt s hs
    unfold stretchFactor
    exact ⟨le_max_left _ _, max_le (by linarith) (min_le_right _ _)⟩
  · norm_num [stretchFactor]
  · intro src
    rcases le_or_lt src 0 with h | h
    · simp only [stretchFactor, if_pos h, if_pos (le_refl (0 : ℚ))]
      norm_num
    · simp only [stretchFactor, if_neg (not_le.mpr h), if_pos (le_refl (0 : ℚ))]
      rw [div_self (ne_of_gt h)]
      norm_num
  · intro src tgt s h1 h2 h3 h4
    simp only [stretchFactor, if_neg (not_le.mpr h1), if_neg (not_le.mpr h2)]
    rw [min_eq_left h4, max_eq_right h3]

/-- Claim C4 witness: instantiation at source 100, target 200,
maxShift 1/20. -/
theorem C4_tempo_clamp_witness :
    1 - 1 / 20 ≤ stretchFactor 100 200 (1 / 20) ∧
    stretchFactor 100 200 (1 / 20) ≤ 1 + 1 / 20 :=
  C4_tempo_clamp.1 100 200 (1 / 20) (by norm_num)

/-- Claim C5: for positive duration and ordered thresholds, the
three-branch candidate computation of determine_transition_point equals
the single formula min(0.6 * D, maxT). -/
theorem C5_candidate_collapses (D minT maxT : ℚ) (hD : 0 < D)
    (h : minT < maxT) :
    candidate_transition D minT maxT = candidate_transition_spec D maxT := by
  unfold candidate_transition candidate_transition_spec
  split_ifs with h1 h2
  · exact (min_eq_left (by linarith)).symm
  · rfl
  · exact (min_eq_left (by linarith)).symm

/-- Claim C5 witness: a 90 s track with thresholds 60 and 120 yields
candidate 54 on both sides. -/
theorem C5_candidate_collapses_witness :
    candidate_transition 90 60 120 = candidate_transition_spec 90 120 :=
  C5_candidate_collapses 90 60 120 (by norm_num) (by norm_num)

/-- Claim C6: the first-pair mix duration is (t1 - crossfade) + t2
clamped at zero, both sound-effect overlay positions are the clamped
expressions of the spec, none of the three quantities is ever negative,
and truncating the blended result keeps exactly min(duration, length)
milliseconds of it. -/
theorem C6_mix_assembly_arithmetic :
    (∀ t1 t2 cf : ℤ,
        mix_12_duration t1 t2 cf = max 0 ((t1 - cf) + t2) ∧
        0 ≤ mix_12_duration t1 t2 cf ∧
        fx1_pos t1 cf = max 0 (t1 - cf) ∧
        0 ≤ fx1_pos t1 cf ∧
        fx2_pos t1 t2 cf = max 0 (mix_12_duration t1 t2 cf - cf) ∧
        0 ≤ fx2_pos t1 t2 cf) ∧
    (∀ (mix : List ℚ) (t1 t2 cf : ℤ),
        ((truncateMix mix (mix_12_duration t1 t2 cf)).length : ℤ) =
          min (mix_12_duration t1 t2 cf) (mix.length : ℤ)) := by
  constructor
  · intro t1 t2 cf
    refine ⟨?_, mix_12_duration_nonneg t1 t2 cf, rfl, le_max_left _ _, rfl,
      le_max_left _ _⟩
    unfold mix_12_duration
    rcases le_or_lt 0 ((t1 - cf) + t2) with h | h
    · rw [if_neg (not_lt.mpr h), max_eq_right h]
    · rw [if_pos h, max_eq_left (le_of_lt h)]
  · intro mix t1 t2 cf
    unfold truncateMix
    rw [List.length_take, Nat.cast_min,
      Int.toNat_of_nonneg (mix_12_duration_nonneg t1 t2 cf)]

/-- Helper: pyInt of a nonnegative rational is nonnegative. -/
theorem pyInt_nonneg {x : ℚ} (h : 0 ≤ x) : 0 ≤ pyInt x := by
  unfold pyInt
  rw [if_pos h]
  exact Int.floor_nonneg.mpr h

/-- Helper: pyInt (truncation toward zero) is monotone. -/
theorem pyInt_mono {x y : ℚ} (h : x ≤ y) : pyInt x ≤ pyInt y := by
  unfold pyInt
  split_ifs with hx hy hy
  · exact Int.floor_mono h
  · exact absurd (le_trans hx h) hy
  · have h1 : (0 : ℚ) ≤ -x := by
      have := lt_of_not_le hx
      linarith
    have h2 : 0 ≤ ⌊-x⌋ := Int.floor_nonneg.mpr h1
    have h3 : 0 ≤ ⌊y⌋ := Int.floor_nonneg.mpr hy
    omega
  · have := Int.floor_mono (neg_le_neg h)
    omega

/-- Helper: a Python slice from 0 to a nonnegative bound is a take. -/
theorem pySlice_zero_take (y : List ℚ) {b : ℤ} (hb : 0 ≤ b) :
    pySlice y 0 b = y.take b.toNat := by
  simp only [pySlice]
  rw [if_neg (by omega : ¬ ((0 : ℤ) < 0)), if_neg (not_lt.mpr hb)]
  have h3 : (min (0 : ℤ) (y.length : ℤ)).toNat = 0 := by omega
  have h4 : (min b (y.length : ℤ)).toNat = min b.toNat y.length := by omega
  rw [h3, h4, List.drop_zero]
  rcases le_total b.toNat y.length with h | h
  · rw [min_eq_left h]
  · rw [min_eq_right h, List.take_length, List.take_of_length_le h]

/-- Helper: a Python slice from a nonnegative index to the length is a
drop. -/
theorem pySlice_to_end_drop (y : List ℚ) {a : ℤ} (ha : 0 ≤ a) :
    pySlice y a (y.length : ℤ) = y.drop a.toNat := by
  simp only [pySlice]
  rw [if_neg (not_lt.mpr ha),
    if_neg (by simp : ¬ ((y.length : ℤ) < 0))]
  have h3 : (min (y.length : ℤ) (y.length : ℤ)).toNat = y.length := by omega
  have h4 : (min a (y.length : ℤ)).toNat = min a.toNat y.length := by omega
  rw [h3, h4, List.take_length]
  rcases le_total a.toNat y.length with h | h
  · rw [min_eq_left h]
  · rw [min_eq_right h, List.drop_length, List.drop_of_length_le h]

/-- Claim C7: the tempo-aligned waveform is the input unchanged whenever
the extraction window collapses (in particular for any non-positive
lookback window), and otherwise is exactly the untouched prefix before
the window, the stretched segment, and the untouched suffix from the
exit sample onward; dropping the prefix and the stretched segment
recovers the original suffix. -/
theorem C7_tempo_window_splice (stretch : List ℚ → ℚ → List ℚ)
    (y : List ℚ) (sr t w src tgt ms : ℚ) (hsr : 0 ≤ sr) :
    (w ≤ 0 → apply_outgoing_tempo stretch y sr t w src tgt ms = y) ∧
    (pyInt (t * sr) ≤ pyInt (max 0 (t - w) * sr) →
        apply_outgoing_tempo stretch y sr t w src tgt ms = y) ∧
    (pyInt (max 0 (t - w) * sr) < pyInt (t * sr) →
        apply_outgoing_tempo stretch y sr t w src tgt ms =
          y.take (pyInt (max 0 (t - w) * sr)).toNat ++
            stretch (pySlice y (pyInt (max 0 (t - w) * sr)) (pyInt (t * sr)))
              (stretchFactor src tgt ms) ++
            y.drop (pyInt (t * sr)).toNat) ∧
    (pyInt (max 0 (t - w) * sr) < pyInt (t * sr) →
        (apply_outgoing_tempo stretch y sr t w src tgt ms).drop
          ((y.take (pyInt (max 0 (t - w) * sr)).toNat).length +
            (stretch (pySlice y (pyInt (max 0 (t - w) * sr)) (pyInt (t * sr)))
              (stretchFactor src tgt ms)).length) =
          y.drop (pyInt (t * sr)).toNat) := by
  have ha : 0 ≤ pyInt (max 0 (t - w) * sr) :=
    pyInt_nonneg (mul_nonneg (le_max_left 0 (t - w)) hsr)
  have hguard : pyInt (t * sr) ≤ pyInt (max 0 (t - w) * sr) →
      apply_outgoing_tempo stretch y sr t w src tgt ms = y := by
    intro hle
    simp only [apply_outgoing_tempo]
    rw [if_pos hle]
  have hsplice : pyInt (max 0 (t - w) * sr) < pyInt (t * sr) →
      apply_outgoing_tempo stretch y sr t w src tgt ms =
        y.take (pyInt (max 0 (t - w) * sr)).toNat ++
          stretch (pySlice y (pyInt (max 0 (t - w) * sr)) (pyInt (t * sr)))
            (stretchFactor src tgt ms) ++
          y.drop (pyInt (t * sr)).toNat := by
    intro h
    simp only [apply_outgoing_tempo]
    rw [if_neg (not_le.mpr h), pySlice_zero_take y ha,
      pySlice_to_end_drop y (le_trans ha (le_of_lt h))]
  refine ⟨?_, hguard, hsplice, ?_⟩
  · intro hw
    have hle : t ≤ max 0 (t - w) := le_max_of_le_right (by linarith)
    exact hguard (pyInt_mono (mul_le_mul_of_nonneg_right hle hsr))
  · intro h
    rw [hsplice h, ← List.length_append, List.drop_left]

/-- Claim C7 witness: a zero lookback window leaves the waveform
untouched. -/
theorem C7_tempo_window_splice_witness :
    apply_outgoing_tempo (fun seg _ => seg) [1, 2, 3] 1 2 0 100 200
      (1 / 20) = [1, 2, 3] :=
  (C7_tempo_window_splice (fun seg _ => seg) [1, 2, 3] 1 2 0 100 200
    (1 / 20) (by norm_num)).1 (le_refl 0)

/-- Claim C10: the extraction start sample is never negative, and
whenever the end sample does not strictly exceed the start sample the
input waveform is returned as-is, so no invalid slice bounds arise. -/
theorem C10_slice_bounds_safety (stretch : List ℚ → ℚ → List ℚ)
    (y : List ℚ) (sr t w src tgt ms : ℚ) (hsr : 0 ≤ sr) :
    0 ≤ pyInt (max 0 (t - w) * sr) ∧
    (pyInt (t * sr) ≤ pyInt (max 0 (t - w) * sr) →
        apply_outgoing_tempo stretch y sr t w src tgt ms = y) := by
  refine ⟨pyInt_nonneg (mul_nonneg (le_max_left 0 (t - w)) hsr), ?_⟩
  intro h
  simp only [apply_outgoing_tempo]
  rw [if_pos h]

/-- Claim C10 witness: an exit timestamp at 0 with a positive lookback
window returns the waveform as-is. -/
theorem C10_slice_bounds_safety_witness :
    apply_outgoing_tempo (fun seg _ => seg) [1, 2] 1 0 1 100 200
      (1 / 20) = [1, 2] :=
  (C10_slice_bounds_safety (fun seg _ => seg) [1, 2] 1 0 1 100 200
    (1 / 20) (by norm_num)).2 (by norm_num)

/-- Helper: membership is preserved by the stable insertion step. -/
theorem mem_insertByDist {c x a : ℚ} {l : List ℚ} :
    a ∈ insertByDist c x l ↔ a = x ∨ a ∈ l := by
  induction l with
  | nil => simp [insertByDist]
  | cons y ys ih =>
    unfold insertByDist
    split_ifs with h
    · rw [List.mem_cons, ih, List.mem_cons]
      tauto
    · exact List.mem_cons

/-- Helper: sorting by distance to the candidate preserves membership. -/
theorem mem_sortByDist {c a : ℚ} {l : List ℚ} :
    a ∈ sortByDist c l ↔ a ∈ l := by
  induction l with
  | nil => simp [sortByDist]
  | cons x xs ih =>
    unfold sortByDist at ih ⊢
    simp only [List.foldr_cons, mem_insertByDist, ih, List.mem_cons]

/-- Helper: bar times are exactly the beats at indices divisible by 4. -/
theorem mem_barTimes {bt : List ℚ} {b : ℚ} :
    b ∈ barTimes bt ↔ ∃ i, i % 4 = 0 ∧ bt[i]? = some b := by
  unfold barTimes
  simp only [List.mem_filterMap, List.mem_filter, List.mem_range,
    decide_eq_true_eq]
  constructor
  · rintro ⟨i, ⟨_, h4⟩, hg⟩
    exact ⟨i, h4, hg⟩
  · rintro ⟨i, h4, hg⟩
    have hlen : i < bt.length := by
      by_contra hno
      rw [List.getElem?_eq_none (Nat.le_of_not_lt hno)] at hg
      exact Option.noConfusion hg
    exact ⟨i, ⟨hlen, h4⟩, hg⟩

unseal Rat.mul Rat.inv Rat.add Rat.sub in
/-- Claim C1: a candidate bar is accepted exactly when it is not
strictly inside any vocal section and is at least 2.0 s from every
section boundary; on the grid with bars at 0, 1, ..., 20 s (beats every
0.25 s), the vocal section [9, 11) and candidate 10, the chosen point is
at least 2.0 s from both boundaries, not inside the section, and none of
8, 9, 10, 11, 12. -/
theorem C1_bar_acceptance :
    (∀ (sections : List (ℚ × ℚ)) (b : ℚ),
        acceptBar sections b = true ↔
          ∀ s ∈ sections,
            ¬(s.1 < b ∧ b < s.2) ∧ 2 ≤ |b - s.1| ∧ 2 ≤ |b - s.2|) ∧
    (2 ≤ |find_safe_transition_core [(9, 11)]
            ((List.range 81).map (fun i => (i : ℚ) / 4)) 10 15 - 9| ∧
     2 ≤ |find_safe_transition_core [(9, 11)]
            ((List.range 81).map (fun i => (i : ℚ) / 4)) 10 15 - 11| ∧
     ¬((9 : ℚ) < find_safe_transition_core [(9, 11)]
            ((List.range 81).map (fun i => (i : ℚ) / 4)) 10 15 ∧
        find_safe_transition_core [(9, 11)]
            ((List.range 81).map (fun i => (i : ℚ) / 4)) 10 15 < 11) ∧
     find_safe_transition_core [(9, 11)]
            ((List.range 81).map (fun i => (i : ℚ) / 4)) 10 15 ∉
       ([8, 9, 10, 11, 12] : List ℚ)) := by
  constructor
  · intro sections b
    simp only [acceptBar, List.all_eq_true, Bool.not_or, Bool.and_eq_true,
      Bool.not_eq_true', decide_eq_false_iff_not, not_lt]
    constructor
    · intro h s hs
      have h2 := h s hs
      tauto
    · intro h s hs
      have h2 := h s hs
      tauto
  · decide

/-- Claim C1 witness: the acceptance rule applied to the empty section
list accepts every bar. -/
theorem C1_bar_acceptance_witness :
    acceptBar [] 7 = true :=
  (C1_bar_acceptance.1 [] 7).mpr (by intro s hs; cases hs)

/-- Claim C3: whenever every bar inside the search window is rejected,
the original candidate timestamp is returned unchanged. -/
theorem C3_fallback_to_candidate (sections : List (ℚ × ℚ)) (bt : List ℚ)
    (cand r : ℚ)
    (h : ∀ b ∈ (barTimes bt).filter (fun b =>
        decide (cand - r ≤ b) && decide (b ≤ cand + r)),
        acceptBar sections b = false) :
    find_safe_transition_core sections bt cand r = cand := by
  have hnone : (sortByDist cand ((barTimes bt).filter (fun b =>
      decide (cand - r ≤ b) && decide (b ≤ cand + r)))).find?
      (acceptBar sections) = none := by
    rw [List.find?_eq_none]
    intro b hb
    rw [mem_sortByDist] at hb
    simp [h b hb]
  simp only [find_safe_transition_core, hnone, Option.getD_none]

/-- Claim C3 witness: with an empty beat grid the candidate comes back
unchanged. -/
theorem C3_fallback_to_candidate_witness :
    find_safe_transition_core [] [] 5 15 = 5 :=
  C3_fallback_to_candidate [] [] 5 15 (by decide)

/-- Claim C9: the chosen transition point is either exactly the
candidate or a beat-grid entry at an index divisible by 4 lying within
the search window; with a nonnegative candidate and nonnegative beat
times the result is nonnegative. -/
theorem C9_result_shape (sections : List (ℚ × ℚ)) (bt : List ℚ)
    (cand r : ℚ) (hc : 0 ≤ cand) (hb : ∀ t ∈ bt, 0 ≤ t) :
    (find_safe_transition_core sections bt cand r = cand ∨
      ∃ i, i % 4 = 0 ∧
        bt[i]? = some (find_safe_transition_core sections bt cand r) ∧
        cand - r ≤ find_safe_transition_core sections bt cand r ∧
        find_safe_transition_core sections bt cand r ≤ cand + r) ∧
    0 ≤ find_safe_transition_core sections bt cand r := by
  simp only [find_safe_transition_core]
  cases hf : (sortByDist cand ((barTimes bt).filter (fun b =>
      decide (cand - r ≤ b) && decide (b ≤ cand + r)))).find?
      (acceptBar sections) with
  | none =>
    rw [Option.getD_none]
    exact ⟨Or.inl rfl, hc⟩
  | some b =>
    rw [Option.getD_some]
    have hmem := List.mem_of_find?_eq_some hf
    rw [mem_sortByDist, List.mem_filter] at hmem
    obtain ⟨hbar, hcond⟩ := hmem
    rw [Bool.and_eq_true, decide_eq_true_eq, decide_eq_true_eq] at hcond
    obtain ⟨i, hi4, hig⟩ := mem_barTimes.mp hbar
    exact ⟨Or.inr ⟨i, hi4, hig, hcond.1, hcond.2⟩,
      hb b (List.getElem?_mem hig)⟩

/-- Claim C9 witness: instantiation at the empty inputs. -/
theorem C9_result_shape_witness :
    (find_safe_transition_core [] [] 0 0 = 0 ∨
      ∃ i, i % 4 = 0 ∧
        ([] : List ℚ)[i]? = some (find_safe_transition_core [] [] 0 0) ∧
        0 - 0 ≤ find_safe_transition_core [] [] 0 0 ∧
        find_safe_transition_core [] [] 0 0 ≤ 0 + 0) ∧
    0 ≤ find_safe_transition_core [] [] 0 0 :=
  C9_result_shape [] [] 0 0 (le_refl 0) (by intro t ht; cases ht)

/-- Claim C8: beat analysis never propagates a failure of the underlying
analyzer: an erroring backend yields the default of bpm 120 with no
beats, and a succeeding backend's result is passed through. -/
theorem C8_beat_analysis_fallback {ε : Type}
    (analyze : List ℚ → Except ε (ℚ × List ℚ)) (y : List ℚ) :
    (∀ e, analyze y = Except.error e →
        find_bpm_and_beats analyze y = (120, [])) ∧
    (∀ res, analyze y = Except.ok res →
        find_bpm_and_beats analyze y = res) := by
  constructor
  · intro e he
    simp [find_bpm_and_beats, he]
  · intro res hr
    simp [find_bpm_and_beats, hr]

/-- Claim C8 witness: a backend that always fails yields the default. -/
theorem C8_beat_analysis_fallback_witness :
    find_bpm_and_beats
      (fun _ : List ℚ => (Except.error () : Except Unit (ℚ × List ℚ))) [] =
      (120, []) :=
  (C8_beat_analysis_fallback (fun _ => Except.error ()) []).1 () rfl

end AIDJ
